import Mathlib

/-!
Verification development for the QQBotRouter webhook router.

This file gives a shallow embedding, in Lean 4, of the parts of the Go
source that the verified properties are about:

* `utils/message.go` (`IsSpamPattern`, `IsHighPriorityMessage`, `IsFastUser`,
  the latter on top of a full embedding of the MD5 digest used by
  `crypto/md5.Sum`);
* `scheduler/scheduler.go` (the `container/heap` push, `Submit`,
  `calculatePriority`, `checkRegexRoutes`, `selectDestinations`);
* the forwarder (`ForwardToMultipleDestinations`, `sendResult`);
* the QoS manager (`ShouldThrottle`, `isCircuitOpen`,
  `shouldAdaptiveThrottle`, `updateCircuitBreaker`, `UpdateConfig`) together
  with a small transition system describing its reachable states;
* the webhook handler (`generateSeed`, `GenDispatchACK`, the event-dispatch
  response) ;
* the statistics analyzer (`updateBaselines` on top of an embedding of the
  `Percentile` routine of the montanaflynn/stats dependency).

Modelling conventions, used consistently below:

* Go machine integers are modelled as `Int` (no claim here depends on
  64-bit overflow); byte strings are `List Nat` with entries below 256;
  `time.Duration` / `time.Time` values are `Int` nanosecond counts.
* `float64` arithmetic is modelled as exact arithmetic in `ℚ`.
* External library calls whose results are data for the code under
  verification (the Go regexp engine, the JSON body parser) are passed in
  as explicit function arguments, so every control path of the repository
  code itself is represented.
* Loops whose termination is part of what is being verified are given an
  explicit fuel parameter; `none` means the loop is still running after
  `fuel` iterations.
-/

/-! ### Byte-level string utilities (Go `strings`, `[]byte(s)`) -/

/-- UTF-8 encoding of one scalar value, as Go produces for a `rune`. -/
def encodeChar (c : Char) : List Nat :=
  let n := c.toNat
  if n < 128 then [n]
  else if n < 2048 then [192 + n / 64, 128 + n % 64]
  else if n < 65536 then [224 + n / 4096, 128 + n / 64 % 64, 128 + n % 64]
  else [240 + n / 262144, 128 + n / 4096 % 64, 128 + n / 64 % 64, 128 + n % 64]

/-- The byte sequence of a Go string (`[]byte(s)`): UTF-8 bytes. -/
def utf8Bytes (s : String) : List Nat :=
  s.data.foldr (fun c acc => encodeChar c ++ acc) []

/-- Go `strings.ToLower`, restricted to ASCII case mapping (the only case
mapping exercised by the configured keyword sets and the inputs used here). -/
def lowerStr (s : String) : String :=
  ⟨s.data.map Char.toLower⟩

/-- Go `strings.Contains hay needle` on rune sequences: some suffix of `hay`
starts with `needle`.  (For valid UTF-8, byte-level and rune-level substring
containment agree.) -/
def hasSub : List Char → List Char → Bool
  | hay@(_ :: t), needle => needle.isPrefixOf hay || hasSub t needle
  | [], needle => needle.isEmpty

/-- Number of positions `i ≥ 1` with `b[i] = b[i-1]`, as in the
repetition scan of `IsSpamPattern`. -/
def countRepeats : List Nat → Nat
  | a :: b :: t => (if a = b then 1 else 0) + countRepeats (b :: t)
  | _ => 0

/-! ### MD5 (crypto/md5), used by `utils.IsFastUser` -/

/-- Reduce to a 32-bit word. -/
def w32 (n : Nat) : Nat := n % 4294967296

/-- 32-bit left rotation of a word `x < 2^32` by `s < 32` bits. -/
def rotl (x s : Nat) : Nat := w32 (x * 2 ^ s) + x / 2 ^ (32 - s)

/-- The 64 MD5 sine-derived constants. -/
def md5K : List Nat :=
  [0xd76aa478, 0xe8c7b756, 0x242070db, 0xc1bdceee,
   0xf57c0faf, 0x4787c62a, 0xa8304613, 0xfd469501,
   0x698098d8, 0x8b44f7af, 0xffff5bb1, 0x895cd7be,
   0x6b901122, 0xfd987193, 0xa679438e, 0x49b40821,
   0xf61e2562, 0xc040b340, 0x265e5a51, 0xe9b6c7aa,
   0xd62f105d, 0x02441453, 0xd8a1e681, 0xe7d3fbc8,
   0x21e1cde6, 0xc33707d6, 0xf4d50d87, 0x455a14ed,
   0xa9e3e905, 0xfcefa3f8, 0x676f02d9, 0x8d2a4c8a,
   0xfffa3942, 0x8771f681, 0x6d9d6122, 0xfde5380c,
   0xa4beea44, 0x4bdecfa9, 0xf6bb4b60, 0xbebfbc70,
   0x289b7ec6, 0xeaa127fa, 0xd4ef3085, 0x04881d05,
   0xd9d4d039, 0xe6db99e5, 0x1fa27cf8, 0xc4ac5665,
   0xf4292244, 0x432aff97, 0xab9423a7, 0xfc93a039,
   0x655b59c3, 0x8f0ccc92, 0xffeff47d, 0x85845dd1,
   0x6fa87e4f, 0xfe2ce6e0, 0xa3014314, 0x4e0811a1,
   0xf7537e82, 0xbd3af235, 0x2ad7d2bb, 0xeb86d391]

/-- The 64 MD5 per-round rotation amounts. -/
def md5S : List Nat :=
  [7, 12, 17, 22, 7, 12, 17, 22, 7, 12, 17, 22, 7, 12, 17, 22,
   5, 9, 14, 20, 5, 9, 14, 20, 5, 9, 14, 20, 5, 9, 14, 20,
   4, 11, 16, 23, 4, 11, 16, 23, 4, 11, 16, 23, 4, 11, 16, 23,
   6, 10, 15, 21, 6, 10, 15, 21, 6, 10, 15, 21, 6, 10, 15, 21]

/-- The MD5 round mixing function for round `i`. -/
def md5F (i b c d : Nat) : Nat :=
  if i < 16 then Nat.lor (Nat.land b c) (Nat.land (4294967295 - b) d)
  else if i < 32 then Nat.lor (Nat.land d b) (Nat.land (4294967295 - d) c)
  else if i < 48 then Nat.xor (Nat.xor b c) d
  else Nat.xor c (Nat.lor b (4294967295 - d))

/-- The MD5 message-word schedule for round `i`. -/
def md5G (i : Nat) : Nat :=
  if i < 16 then i
  else if i < 32 then (5 * i + 1) % 16
  else if i < 48 then (3 * i + 5) % 16
  else (7 * i) % 16

/-- The four 32-bit MD5 chaining words. -/
structure MD5State where
  a : Nat
  b : Nat
  c : Nat
  d : Nat

/-- One MD5 round on chaining state `st` with message words `M`. -/
def md5Round (M : List Nat) (st : MD5State) (i : Nat) : MD5State :=
  let f := w32 (md5F i st.b st.c st.d + st.a + md5K.getD i 0 + M.getD (md5G i) 0)
  ⟨st.d, w32 (st.b + rotl f (md5S.getD i 0)), st.b, st.c⟩

/-- MD5 compression of one 64-byte chunk. -/
def md5Compress (st : MD5State) (chunk : List Nat) : MD5State :=
  let M := (List.range 16).map fun j =>
    chunk.getD (4 * j) 0 + 256 * chunk.getD (4 * j + 1) 0 +
      65536 * chunk.getD (4 * j + 2) 0 + 16777216 * chunk.getD (4 * j + 3) 0
  let r := (List.range 64).foldl (md5Round M) st
  ⟨w32 (st.a + r.a), w32 (st.b + r.b), w32 (st.c + r.c), w32 (st.d + r.d)⟩

/-- MD5 padding: `0x80`, zeros to 56 mod 64, then the bit length in
little-endian 64 bits. -/
def md5Pad (msg : List Nat) : List Nat :=
  let len := msg.length
  let zeros := (120 - (len + 1) % 64) % 64
  let bitLen := len * 8 % 18446744073709551616
  msg ++ [128] ++ List.replicate zeros 0 ++
    (List.range 8).map fun j => bitLen / 256 ^ j % 256

/-- Fold the compression function over `k` successive 64-byte chunks. -/
def md5Chunks : Nat → List Nat → MD5State → MD5State
  | 0, _, st => st
  | k + 1, l, st => md5Chunks k (l.drop 64) (md5Compress st (l.take 64))

/-- The 16-byte MD5 digest of a byte sequence, as `crypto/md5.Sum`. -/
def md5Bytes (msg : List Nat) : List Nat :=
  let p := md5Pad msg
  let st := md5Chunks (p.length / 64) p ⟨0x67452301, 0xefcdab89, 0x98badcfe, 0x10325476⟩
  ((List.range 4).map fun j => st.a / 256 ^ j % 256) ++
    ((List.range 4).map fun j => st.b / 256 ^ j % 256) ++
    ((List.range 4).map fun j => st.c / 256 ^ j % 256) ++
    ((List.range 4).map fun j => st.d / 256 ^ j % 256)

/-! ### utils/message.go -/

/-- `utils.IsSpamPattern(message, spamKeywords)`: a lowered keyword occurs in
the lowered message, or a message longer than 10 bytes has more than 70%
adjacent-byte repetitions.  The `float64` ratio test is modelled in `ℚ`. -/
def isSpamPattern (message : String) (spamKeywords : List String) : Bool :=
  let messageLower := lowerStr message
  if spamKeywords.any fun pat => hasSub messageLower.data (lowerStr pat).data then true
  else
    let bytes := utf8Bytes message
    if bytes.length > 10 then
      decide ((countRepeats bytes : ℚ) / (bytes.length : ℚ) > 7 / 10)
    else false

/-- `utils.IsHighPriorityMessage(message, priorityKeywords)`. -/
def isHighPriorityMessage (message : String) (priorityKeywords : List String) : Bool :=
  let messageLower := lowerStr message
  priorityKeywords.any fun pat => hasSub messageLower.data (lowerStr pat).data

/-- `utils.IsFastUser(userID)`: first byte of `md5.Sum([]byte(userID))`
is divisible by 4. -/
def isFastUser (userID : String) : Bool :=
  (md5Bytes (utf8Bytes userID)).getD 0 0 % 4 == 0


/-! ### scheduler/scheduler.go -/

/-- The fields of `scheduler.Request` that the scheduler logic reads. -/
structure Request where
  priority : Int
  userID : String
  message : String
  timestamp : Int

instance : Inhabited Request := ⟨⟨0, "", "", 0⟩⟩

/-- `PriorityQueue.Less i j`: element `i` has strictly greater priority
(a max-heap). -/
def pqLess (pq : List Request) (i j : Nat) : Bool :=
  decide ((pq.getD i default).priority > (pq.getD j default).priority)

/-- `PriorityQueue.Swap i j`. -/
def pqSwap (pq : List Request) (i j : Nat) : List Request :=
  (pq.set i (pq.getD j default)).set j (pq.getD i default)

/-- `container/heap.up` (sift-up) with explicit fuel; the parent of `j+1`
is `j / 2`, and the loop stops at the root (`i == j` in Go only at `j = 0`).
Fuel `j + 1` always suffices because the index strictly decreases. -/
def heapUpFuel : Nat → List Request → Nat → List Request
  | 0, pq, _ => pq
  | _ + 1, pq, 0 => pq
  | fuel + 1, pq, j + 1 =>
    let i := j / 2
    if pqLess pq (j + 1) i then heapUpFuel fuel (pqSwap pq i (j + 1)) i
    else pq

/-- `container/heap.Push`: append, then sift up from the last index. -/
def heapPush (pq : List Request) (r : Request) : List Request :=
  let pq2 := pq ++ [r]
  heapUpFuel pq2.length pq2 (pq2.length - 1)

/-- `SchedulerConfig.PrioritySettings`. -/
structure PrioSettings where
  basePriority : Int
  minPriority : Int
  maxPriority : Int
  highLoadAdjustment : Int
  lowLoadAdjustment : Int
  fastUserBonus : Int

/-- `SchedulerConfig.MessageClassification`. -/
structure MsgClass where
  enabled : Bool
  spamDetection : Bool
  spamKeywords : List String
  priorityKeywords : List String

/-- The parts of `config.SchedulerConfig` read by the scheduler. -/
structure SchedulerConfig where
  workerPoolSize : Int
  prioritySettings : PrioSettings
  messageClassification : MsgClass

/-- `config.GetDefaultSchedulerConfig()`, restricted to the fields above. -/
def defaultSchedulerConfig : SchedulerConfig where
  workerPoolSize := 10
  prioritySettings :=
    { basePriority := 5, minPriority := 1, maxPriority := 10,
      highLoadAdjustment := -2, lowLoadAdjustment := 1, fastUserBonus := 2 }
  messageClassification :=
    { enabled := true, spamDetection := true,
      spamKeywords := ["重复", "刷屏", "广告", "推广", "spam", "advertisement", "promotion"],
      priorityKeywords := ["紧急", "重要", "帮助", "问题", "错误", "urgent", "important", "help", "error", "issue"] }

/-- Lookup in the `userLastRequest` map. -/
def lookupLast (m : List (String × Int)) (k : String) : Option Int :=
  (m.find? fun p => p.fst == k).map Prod.snd

/-- Store into the `userLastRequest` map. -/
def setLast (m : List (String × Int)) (k : String) (v : Int) : List (String × Int) :=
  (k, v) :: m.filter fun p => p.fst != k

/-- `Scheduler.calculatePriority` (scheduler/scheduler.go).  Inputs that the
Go method reads from collaborators are explicit arguments: `maxLoad` from
the QoS configuration, `currentLoad` from the load counter, `p50` from the
statistics analyzer (nanoseconds), `now` the current time, `userLast` the
`userLastRequest` map.  Returns the priority and the updated map.
Go `int` / `time.Duration` division truncates toward zero (`Int.tdiv`). -/
def calculatePriority (cfg : SchedulerConfig) (maxLoad currentLoad p50 now : Int)
    (userLast : List (String × Int)) (userID message : String) :
    Int × List (String × Int) :=
  let ps := cfg.prioritySettings
  let b0 := ps.basePriority
  let b1 :=
    if currentLoad > maxLoad then b0 + ps.highLoadAdjustment
    else if currentLoad < maxLoad.tdiv 10 then b0 + ps.lowLoadAdjustment
    else b0
  let last := lookupLast userLast userID
  let userLast2 := setLast userLast userID now
  let b2 :=
    match last with
    | none => b1
    | some t =>
      let interval := now - t
      if p50 > 0 && decide (interval < p50.tdiv 3) then b1 - ps.highLoadAdjustment * 2
      else if p50 > 0 && decide (interval < p50.tdiv 2) then b1 - ps.highLoadAdjustment
      else b1
  let b3 :=
    if cfg.messageClassification.enabled then
      if cfg.messageClassification.spamDetection &&
          isSpamPattern message cfg.messageClassification.spamKeywords then
        ps.minPriority
      else if isHighPriorityMessage message cfg.messageClassification.priorityKeywords then
        ps.maxPriority
      else b2
    else b2
  let b4 := if isFastUser userID then b3 + ps.fastUserBonus else b3
  let b5 :=
    if b4 < ps.minPriority then ps.minPriority
    else if b4 > ps.maxPriority then ps.maxPriority
    else b4
  (b5, userLast2)

/-- The scheduler state touched by `Submit`: the priority heap and the
`userLastRequest` map. -/
structure SchedulerState where
  pq : List Request
  userLastRequest : List (String × Int)

/-- `Scheduler.Submit` (scheduler/scheduler.go lines 347-368).  `parse`
stands for `utils.ParseMessage` (a wrapper over `encoding/json`); its result
on the request body is the `(userID, message)` pair.  The method computes
the priority, pushes the request onto the heap, and returns `true`:
there is no queue-size check on any path. -/
def Submit (cfg : SchedulerConfig) (maxLoad currentLoad p50 now : Int)
    (parse : String → String × String) (st : SchedulerState) (body : String) :
    Bool × SchedulerState :=
  let uidMsg := parse body
  let pr := calculatePriority cfg maxLoad currentLoad p50 now st.userLastRequest uidMsg.fst uidMsg.snd
  let request : Request :=
    { priority := pr.fst, userID := uidMsg.fst, message := uidMsg.snd, timestamp := now }
  (true, { pq := heapPush st.pq request, userLastRequest := pr.snd })

/-- The queue cap named by the configuration surface
(`max_queue_size: 10000` in config/config.go); `Submit` never reads it. -/
def maxQueueSizeDefault : Nat := 10000

/-- `config.RegexRouteConfig`. -/
structure RegexRouteConfig where
  isHash : Bool
  endpoints : List String
  urls : List String

/-- `Scheduler.checkRegexRoutes`.  `matchRe pat msg` stands for Go
`regexp.MatchString pat msg`: `none` models a compile error (the rule is
logged and skipped), `some b` a successful match test.  The rules are given
as a list in the order the Go `range` over the `RegexRoutes` map happens to
produce (Go map iteration order is unspecified).  A matching rule whose
`URLs` and `Endpoints` are both empty falls through to the next rule. -/
def checkRegexRoutes (matchRe : String → String → Option Bool)
    (routes : List (String × RegexRouteConfig)) (message : String) : List String :=
  match routes with
  | [] => []
  | (pat, rc) :: rest =>
    match matchRe pat message with
    | none => checkRegexRoutes matchRe rest message
    | some false => checkRegexRoutes matchRe rest message
    | some true =>
      if rc.urls.length > 0 then rc.urls
      else if rc.endpoints.length > 0 then rc.endpoints
      else checkRegexRoutes matchRe rest message

/-- `Scheduler.selectDestinations`: regex routes first, else the bot's
`forward_to` list. -/
def selectDestinations (matchRe : String → String → Option Bool)
    (routes : List (String × RegexRouteConfig)) (forwardTo : List String)
    (message : String) : List String :=
  let ds := checkRegexRoutes matchRe routes message
  if ds.length > 0 then ds else forwardTo

/-- Modelled from the spec (claim C5 reading): destination selection returns
the first matching rule's target list, `urls` if non-empty else `endpoints`
— even when both are empty — and the default targets only when no rule
matches. -/
def specSelectDestinations (matchRe : String → String → Option Bool)
    (routes : List (String × RegexRouteConfig)) (defaultTargets : List String)
    (message : String) : List String :=
  match routes with
  | [] => defaultTargets
  | (pat, rc) :: rest =>
    match matchRe pat message with
    | some true => if rc.urls.length > 0 then rc.urls else rc.endpoints
    | _ => specSelectDestinations matchRe rest defaultTargets message

/-- The selection the code actually implements, stated directly: the first
rule that matches and has a non-empty `urls` or `endpoints` list wins;
a matching rule with no targets is skipped like a non-match. -/
def amendedRouteTargets (matchRe : String → String → Option Bool)
    (routes : List (String × RegexRouteConfig)) (message : String) :
    Option (List String) :=
  match routes with
  | [] => none
  | (pat, rc) :: rest =>
    match matchRe pat message with
    | some true =>
      if rc.urls.length > 0 then some rc.urls
      else if rc.endpoints.length > 0 then some rc.endpoints
      else amendedRouteTargets matchRe rest message
    | _ => amendedRouteTargets matchRe rest message

/-! ### forwarder (src/unnamed/part_011) -/

/-- How one forward task ends: request construction failed, the HTTP client
returned an error, the task panicked (recovered), or a response with a
status code arrived. -/
inductive TaskOutcome where
  | createFailed
  | transportFailed
  | panicked
  | responded (statusCode : Int)

/-- `forwarder.ForwardResult` (the `error` field modelled as a flag). -/
structure ForwardResult where
  destination : String
  success : Bool
  statusCode : Int
  hasError : Bool

/-- The single `ForwardResult` that `ForwardRequestWithResult` hands to
`sendResult` for destination `d`, for each possible ending.  A result is a
success iff the status code is in `[200, 300)`; the panic-recovery path
sends `Success: false` with a nil error. -/
def taskResult (destination : String) : TaskOutcome → ForwardResult
  | .createFailed => ⟨destination, false, 0, true⟩
  | .transportFailed => ⟨destination, false, 0, true⟩
  | .panicked => ⟨destination, false, 0, false⟩
  | .responded code => ⟨destination, decide (200 ≤ code ∧ code < 300), code, false⟩

/-- The environment of one spawned task: how it ends, whether the shared
context was already cancelled (deadline elapsed) when its `sendResult`
ran, and — in that case — whether the Go `select` in `sendResult` picked
the `ctx.Done()` arm (dropping the result) rather than the buffered send.
Both arms are ready when the context is done, and `select` chooses between
ready arms nondeterministically, so the choice is part of the environment. -/
structure TaskEnv where
  outcome : TaskOutcome
  ctxDoneAtSend : Bool
  dropChoice : Bool

/-- `forwarder.sendResult` delivers the result unless the context is done
and the `select` picks the `ctx.Done()` arm.  (The result channel is
buffered with one slot per destination, so the send arm is always ready.) -/
def sendDelivered (e : TaskEnv) : Bool := !(e.ctxDoneAtSend && e.dropChoice)

/-- The multiset of results collected from the channel, one send attempt
per destination, task `i` governed by `env i`.  The collection loop drains
the channel until it is closed, which happens only after every task has
completed, so exactly the delivered results appear. -/
def forwardLoop (env : Nat → TaskEnv) : List String → Nat → List ForwardResult
  | [], _ => []
  | d :: rest, i =>
    if sendDelivered (env i) then
      taskResult d (env i).outcome :: forwardLoop env rest (i + 1)
    else forwardLoop env rest (i + 1)

/-- `forwarder.ForwardToMultipleDestinations`: empty target list short-cut,
then one concurrent task per destination. -/
def ForwardToMultipleDestinations (destinations : List String)
    (env : Nat → TaskEnv) : List ForwardResult :=
  if destinations.isEmpty then [] else forwardLoop env destinations 0

/-- The result list when every task delivers: one entry per destination, in
task order. -/
def fullResults (env : Nat → TaskEnv) : List String → Nat → List ForwardResult
  | [], _ => []
  | d :: rest, i => taskResult d (env i).outcome :: fullResults env rest (i + 1)

/-! ### QoS manager (src/unnamed/part_012) -/

/-- The `config.QoSConfig` fields read by the QoS manager.
`recoveryTimeout` is the parsed `CircuitBreaker.RecoveryTimeout` duration
(nanoseconds). -/
structure QoSCfg where
  cbEnabled : Bool
  failureThreshold : Int
  recoveryTimeout : Int
  atEnabled : Bool
  baseThreshold : Int
  maxThreshold : Int
  maxLoad : Int
  highLoadThreshold : ℚ

/-- The mutable `QoSManager` state (timestamps in nanoseconds). -/
structure QoSState where
  circuitOpen : Bool
  circuitOpenTime : Int
  failureCount : Int
  throttleLevel : ℚ
  cfg : QoSCfg

/-- `NewQoSManager`: circuit closed, zero failures, throttle level 0. -/
def initQoS (cfg : QoSCfg) : QoSState :=
  { circuitOpen := false, circuitOpenTime := 0, failureCount := 0,
    throttleLevel := 0, cfg := cfg }

/-- `QoSManager.isCircuitOpen` at time `now`: when the breaker is enabled
and open, close it (and reset the failure count) once strictly more than
`recoveryTimeout` has passed since it opened, else report open.  Returns
the answer and the (possibly reset) state. -/
def isCircuitOpenQ (st : QoSState) (now : Int) : Bool × QoSState :=
  if st.cfg.cbEnabled = false then (false, st)
  else if st.circuitOpen then
    if now - st.circuitOpenTime > st.cfg.recoveryTimeout then
      (false, { st with circuitOpen := false, failureCount := 0 })
    else (true, st)
  else (false, st)

/-- `QoSManager.shouldAdaptiveThrottle`: the `float64` computation over `ℚ`.
`currentLoad` is the load counter reading. -/
def shouldAdaptiveThrottle (st : QoSState) (currentLoad : Int) (priority : Int) : Bool :=
  if st.cfg.atEnabled = false then false
  else
    let loadFrac : ℚ := (currentLoad : ℚ) / (st.cfg.maxLoad : ℚ)
    let tp0 : ℚ := st.throttleLevel * (1 - (priority : ℚ) / 10)
    let tp : ℚ := if loadFrac > st.cfg.highLoadThreshold then tp0 * (1 + loadFrac) else tp0
    decide (tp > 1 / 2)

/-- `QoSManager.ShouldThrottle`: circuit breaker first (short-circuit),
then adaptive throttling.  The `userID` argument is accepted and ignored,
as in the source. -/
def ShouldThrottle (st : QoSState) (now currentLoad : Int) (userID : String)
    (priority : Int) : Bool × QoSState :=
  let r := isCircuitOpenQ st now
  if r.fst then (true, r.snd)
  else if shouldAdaptiveThrottle r.snd currentLoad priority then (true, r.snd)
  else (false, r.snd)

/-- `QoSManager.updateCircuitBreaker` at time `now`. -/
def updateCircuitBreaker (st : QoSState) (now : Int) (success : Bool) : QoSState :=
  if st.cfg.cbEnabled = false then st
  else if success then { st with failureCount := 0 }
  else if st.failureCount + 1 ≥ st.cfg.failureThreshold then
    { st with
        failureCount := st.failureCount + 1
        circuitOpen := true
        circuitOpenTime := now }
  else { st with failureCount := st.failureCount + 1 }

/-- `QoSManager.UpdateMetrics`: circuit breaker update, then the adaptive
throttle adjustment.  The adjustment (`updateAdaptiveThrottling`) only ever
rewrites `throttleLevel` — it depends on the pluggable strategy, the
observer and rate limiting, so the new level is taken as an arbitrary
environment value `newTL`; this over-approximates every real behaviour,
which is sound for the invariants proved below.  It runs only when adaptive
throttling is enabled. -/
def UpdateMetricsM (st : QoSState) (now : Int) (success : Bool) (newTL : ℚ) : QoSState :=
  let st1 := updateCircuitBreaker st now success
  if st1.cfg.atEnabled then { st1 with throttleLevel := newTL } else st1

/-- The breaker-reset step of `QoSManager.UpdateConfig`: if a breaker
parameter changed between the old configuration and the (already
installed) new one, close the circuit and zero the failure count. -/
def breakerReset (oldCfg : QoSCfg) (st1 : QoSState) : QoSState :=
  if oldCfg.cbEnabled ≠ st1.cfg.cbEnabled ∨
      oldCfg.failureThreshold ≠ st1.cfg.failureThreshold then
    { st1 with circuitOpen := false, failureCount := 0 }
  else st1

/-- The throttle-reset step of `QoSManager.UpdateConfig`: if an
adaptive-throttling parameter changed, zero the throttle level. -/
def throttleReset (oldCfg : QoSCfg) (st2 : QoSState) : QoSState :=
  if oldCfg.atEnabled ≠ st2.cfg.atEnabled ∨
      oldCfg.baseThreshold ≠ st2.cfg.baseThreshold ∨
      oldCfg.maxThreshold ≠ st2.cfg.maxThreshold then
    { st2 with throttleLevel := 0 }
  else st2

/-- `QoSManager.UpdateConfig`: swap the configuration; reset the breaker
state if a breaker parameter changed; reset the throttle level if an
adaptive-throttling parameter changed. -/
def UpdateConfigM (st : QoSState) (newCfg : QoSCfg) : QoSState :=
  throttleReset st.cfg (breakerReset st.cfg { st with cfg := newCfg })

/-- The operations that mutate a `QoSManager` after construction. -/
inductive QoSEvent where
  | metrics (now : Int) (success : Bool) (newTL : ℚ)
  | admission (now currentLoad : Int) (userID : String) (priority : Int)
  | reconfig (newCfg : QoSCfg)

/-- One mutating step of the QoS manager. -/
def stepQoS (st : QoSState) : QoSEvent → QoSState
  | .metrics now success newTL => UpdateMetricsM st now success newTL
  | .admission now currentLoad userID priority =>
    (ShouldThrottle st now currentLoad userID priority).snd
  | .reconfig newCfg => UpdateConfigM st newCfg

/-- The reachable `QoSManager` states: any initial configuration followed
by any sequence of mutating operations. -/
inductive ReachableQoS : QoSState → Prop where
  | init (cfg : QoSCfg) : ReachableQoS (initQoS cfg)
  | step (st : QoSState) (e : QoSEvent) : ReachableQoS st → ReachableQoS (stepQoS st e)

/-- Modelled from the claim (C3 reading): the throttle probability
`p = throttleLevel · (1 − priority/maxPri)` with `maxPri = 10` (the priority
scale the source hard-codes), multiplied by `(1 + loadFrac)` when
`loadFrac = currentLoad / maxLoad` exceeds the high-load threshold. -/
def specThrottleProbability (throttleLevel : ℚ) (currentLoad maxLoad : Int)
    (highLoadThreshold : ℚ) (priority : Int) : ℚ :=
  let loadFrac : ℚ := (currentLoad : ℚ) / (maxLoad : ℚ)
  let p := throttleLevel * (1 - (priority : ℚ) / 10)
  if loadFrac > highLoadThreshold then p * (1 + loadFrac) else p

/-! ### webhook handler (src/unnamed/part_008) -/

/-- The seed-derivation loop of `handler.generateSeed` with explicit fuel:
while the byte length is under 32 (`ed25519.SeedSize`), double the string
(`strings.Repeat(seed, 2)`); afterwards truncate to 32 bytes.  `none`
means the loop is still running after `fuel` iterations. -/
def generateSeedLoop : Nat → List Nat → Option (List Nat)
  | 0, _ => none
  | fuel + 1, s =>
    if s.length < 32 then generateSeedLoop fuel (s ++ s)
    else some (s.take 32)

/-- `handler.generateSeed` on the bytes of the tenant secret.  Fuel 6
covers every terminating run: a non-empty seed at least doubles each
iteration, so at most 5 doublings reach length 32. -/
def generateSeed (secret : List Nat) : Option (List Nat) :=
  generateSeedLoop 6 secret

/-- `secret` repeated `k` times, the "repeat until long enough" reference
of the specification. -/
def repBytes (k : Nat) (s : List Nat) : List Nat :=
  (List.replicate k s).flatten

/-- `handler.ACKResponse` (`op` int, `d` uint32). -/
structure ACKResponse where
  op : Int
  d : Nat

/-- `encoding/json.Marshal` on `ACKResponse`: fields in declaration order
with their tags.  The result is returned as a string; its UTF-8 bytes are
the bytes Go produces. -/
def marshalACK (a : ACKResponse) : String :=
  "\x7b\"op\":" ++ toString a.op ++ ",\"d\":" ++ toString a.d ++ "\x7d"

/-- `handler.GenDispatchACK`: the `success` argument is ignored and the ACK
always carries `op = 12` (`OpHTTPCallbackACK`) and `d = 0`. -/
def GenDispatchACK (success : Bool) : String :=
  marshalACK { op := 12, d := 0 }

/-- The event-dispatch arm of `WebhookHandler.ServeHTTP`
(services/manager.go): status 429 with `GenDispatchACK false` when
throttled, status 200 with `GenDispatchACK true` when admitted. -/
def eventDispatchResponse (throttled : Bool) : Int × String :=
  if throttled then (429, GenDispatchACK false) else (200, GenDispatchACK true)

/-! ### statistics analyzer (ml_trainer/ml_trainer.go, stats) -/

/-- The sample buffer sorted ascending (`sortedCopy` of
montanaflynn/stats). -/
def sortedBuf (input : List ℚ) : List ℚ :=
  List.insertionSort (· ≤ ·) input

/-- `stats.Percentile` of the montanaflynn/stats dependency (the library
the repository vendors; its source is outside `src/`), with `float64`
modelled as `ℚ`: empty input and out-of-range percents fail; a singleton
returns its element; otherwise index `(percent/100)·n` into the sorted
copy, taking the element just below a whole index and the mean of the two
straddling elements otherwise. -/
def percentile (input : List ℚ) (percent : ℚ) : Option ℚ :=
  if input.length = 0 then none
  else if input.length = 1 then some (input.getD 0 0)
  else if percent ≤ 0 ∨ 100 < percent then none
  else if (⌊percent / 100 * (input.length : ℚ)⌋ : ℚ) =
      percent / 100 * (input.length : ℚ) then
    some ((sortedBuf input).getD
      ((⌊percent / 100 * (input.length : ℚ)⌋).toNat - 1) 0)
  else if 1 < percent / 100 * (input.length : ℚ) then
    some (((sortedBuf input).getD
        ((⌊percent / 100 * (input.length : ℚ)⌋).toNat - 1) 0 +
      (sortedBuf input).getD ((⌊percent / 100 * (input.length : ℚ)⌋).toNat) 0) / 2)
  else none

/-- Go's `time.Duration(x)` conversion from `float64`: truncation toward
zero. -/
def truncQ (q : ℚ) : Int :=
  if 0 ≤ q then ⌊q⌋ else ⌈q⌉

/-- The `StatsAnalyzer` state read and written by `updateBaselines`:
the interval sample buffer (milliseconds, as `float64` samples), the two
cached baselines (nanoseconds), and `minDataPoints`. -/
structure StatsState where
  messageIntervals : List ℚ
  p50 : Int
  p90 : Int
  minDataPoints : Nat

/-- `StatsAnalyzer.updateBaselines`: below `minDataPoints` samples nothing
changes; a failing P50 computation leaves the state unchanged; then
`p50` is cached as `time.Duration(v) * time.Millisecond`; a failing P90
computation stops there; else `p90` is cached the same way. -/
def updateBaselines (s : StatsState) : StatsState :=
  if s.messageIntervals.length < s.minDataPoints then s
  else
    match percentile s.messageIntervals 50 with
    | none => s
    | some v50 =>
      let s1 := { s with p50 := truncQ v50 * 1000000 }
      match percentile s.messageIntervals 90 with
      | none => s1
      | some v90 => { s1 with p90 := truncQ v90 * 1000000 }

/-! ### Helper definitions and concrete instances used in the statements -/

/-- The final clamp of `calculatePriority` as a function. -/
def clampPrio (ps : PrioSettings) (x : Int) : Int :=
  if x < ps.minPriority then ps.minPriority
  else if x > ps.maxPriority then ps.maxPriority
  else x

/-- A task environment in which every task delivers its result. -/
def envAllOk : Nat → TaskEnv :=
  fun _ => ⟨.responded 200, false, false⟩

/-- A task environment in which the overall deadline has elapsed before the
send and the `select` picks the `ctx.Done()` arm. -/
def envDropAll : Nat → TaskEnv :=
  fun _ => ⟨.responded 200, true, true⟩

/-- A matcher for which every pattern compiles and matches. -/
def c5MatchAll : String → String → Option Bool := fun _ _ => some true

/-- Two regex rules: the first with both target lists empty, the second
with one URL. -/
def c5Routes : List (String × RegexRouteConfig) :=
  [("^a", ⟨false, [], []⟩), ("^b", ⟨false, [], ["http://x"]⟩)]

/-- A QoS configuration with everything enabled (breaker threshold 5,
recovery timeout 30, max load 100, high-load threshold 0.8). -/
def c3Cfg : QoSCfg :=
  ⟨true, 5, 30, true, 100, 1000, 100, 8 / 10⟩

/-- A QoS state with the circuit closed and throttle level 0.9. -/
def c3State : QoSState :=
  ⟨false, 0, 0, 9 / 10, c3Cfg⟩

/-- A QoS configuration whose breaker opens after a single failure. -/
def c6Cfg : QoSCfg :=
  ⟨true, 1, 30, true, 100, 1000, 100, 8 / 10⟩

/-! ## Theorems -/

/-! ### C1: Submit and the queue cap -/

theorem pqSwap_length (pq : List Request) (i j : Nat) :
    (pqSwap pq i j).length = pq.length := by
  simp [pqSwap]

theorem heapUpFuel_length (fuel : Nat) :
    ∀ (pq : List Request) (j : Nat), (heapUpFuel fuel pq j).length = pq.length := by
  induction fuel with
  | zero => intro pq j; rfl
  | succ n ih =>
    intro pq j
    cases j with
    | zero => rfl
    | succ j =>
      simp only [heapUpFuel]
      split
      · rw [ih, pqSwap_length]
      · rfl

theorem heapPush_length (pq : List Request) (r : Request) :
    (heapPush pq r).length = pq.length + 1 := by
  simp [heapPush, heapUpFuel_length]

theorem submit_fst (cfg : SchedulerConfig) (maxLoad currentLoad p50 now : Int)
    (parse : String → String × String) (st : SchedulerState) (body : String) :
    (Submit cfg maxLoad currentLoad p50 now parse st body).fst = true := rfl

theorem submit_snd_pq_length (cfg : SchedulerConfig) (maxLoad currentLoad p50 now : Int)
    (parse : String → String × String) (st : SchedulerState) (body : String) :
    (Submit cfg maxLoad currentLoad p50 now parse st body).snd.pq.length =
      st.pq.length + 1 :=
  heapPush_length ..

/-- C1 (counterexample): with the priority queue already holding
`maxQueueSizeDefault = 10000` requests, `Submit` still returns `true` and
still enqueues the request (the heap grows to 10001), contradicting the
claim that a submission at the cap returns `false` and leaves the queue
unchanged. -/
theorem C1_counterexample :
    (List.replicate maxQueueSizeDefault (default : Request)).length = maxQueueSizeDefault ∧
    (Submit defaultSchedulerConfig 100 50 0 0 (fun b => ("u", b))
        ⟨List.replicate maxQueueSizeDefault default, []⟩ "body").fst = true ∧
    (Submit defaultSchedulerConfig 100 50 0 0 (fun b => ("u", b))
        ⟨List.replicate maxQueueSizeDefault default, []⟩ "body").snd.pq.length =
      maxQueueSizeDefault + 1 := by
  refine ⟨List.length_replicate .., submit_fst .., ?_⟩
  rw [submit_snd_pq_length, List.length_replicate]

/-- C1 (amended): `Scheduler.Submit` succeeds unconditionally — for every
configuration, load, baseline, map state, queue state and body it returns
`true` and pushes exactly one request onto the heap; no `maxQueueSize`
cap is enforced anywhere in `Submit`. -/
theorem C1_submit_always_enqueues (cfg : SchedulerConfig)
    (maxLoad currentLoad p50 now : Int) (parse : String → String × String)
    (st : SchedulerState) (body : String) :
    (Submit cfg maxLoad currentLoad p50 now parse st body).fst = true ∧
    (Submit cfg maxLoad currentLoad p50 now parse st body).snd.pq.length =
      st.pq.length + 1 :=
  ⟨submit_fst .., submit_snd_pq_length ..⟩

/-! ### C2: one forward result per destination -/

theorem forwardLoop_length_le (env : Nat → TaskEnv) :
    ∀ (ds : List String) (i : Nat), (forwardLoop env ds i).length ≤ ds.length := by
  intro ds
  induction ds with
  | nil => intro i; exact Nat.le_refl 0
  | cons d rest ih =>
    intro i
    simp only [forwardLoop]
    split
    · simpa using Nat.succ_le_succ (ih (i + 1))
    · exact Nat.le_succ_of_le (ih (i + 1))

theorem fullResults_length (env : Nat → TaskEnv) :
    ∀ (ds : List String) (i : Nat), (fullResults env ds i).length = ds.length := by
  intro ds
  induction ds with
  | nil => intro i; rfl
  | cons d rest ih => intro i; simp [fullResults, ih]

theorem forwardLoop_all_delivered (env : Nat → TaskEnv) :
    ∀ (ds : List String) (i : Nat),
      (∀ k, k < ds.length → sendDelivered (env (i + k)) = true) →
      forwardLoop env ds i = fullResults env ds i := by
  intro ds
  induction ds with
  | nil => intro i _; rfl
  | cons d rest ih =>
    intro i h
    have h0 : sendDelivered (env i) = true := by simpa using h 0 (Nat.succ_pos _)
    have hrest : ∀ k, k < rest.length → sendDelivered (env (i + 1 + k)) = true := by
      intro k hk
      have := h (k + 1) (by simpa using Nat.succ_lt_succ hk)
      simpa [Nat.add_assoc, Nat.add_comm 1 k] using this
    simp [forwardLoop, fullResults, h0, ih (i + 1) hrest]

/-- C2 (counterexample): with a single target whose send races an expired
overall deadline (`ctx.Done()` arm chosen in `sendResult`), the aggregate
returns no result at all — 0 entries for 1 target — so the claim that the
returned sequence always has exactly one entry per target is false. -/
theorem C2_counterexample :
    (ForwardToMultipleDestinations ["http://a"] envDropAll).length = 0 ∧
    ¬((ForwardToMultipleDestinations ["http://a"] envDropAll).length =
        (["http://a"] : List String).length) := by
  refine ⟨rfl, ?_⟩
  simp [ForwardToMultipleDestinations, forwardLoop, envDropAll, sendDelivered]

/-- C2 (amended): the aggregate never returns more than one entry per
target, and when no task's send races an expired deadline (in particular
whenever the overall deadline has not elapsed) the returned sequence is
exactly one entry per target, in order, each carrying that target's
outcome.  The aggregate itself returns only after every spawned task has
run (the result channel is closed only after the final task completes),
which the sequential collection in the model reflects. -/
theorem C2_forward_results (ds : List String) (env : Nat → TaskEnv) :
    (ForwardToMultipleDestinations ds env).length ≤ ds.length ∧
    ((∀ k, k < ds.length → sendDelivered (env k) = true) →
      ForwardToMultipleDestinations ds env = fullResults env ds 0 ∧
      (ForwardToMultipleDestinations ds env).length = ds.length) := by
  constructor
  · cases ds with
    | nil => exact Nat.le_refl 0
    | cons d rest => exact forwardLoop_length_le env (d :: rest) 0
  · intro h
    cases ds with
    | nil => exact ⟨rfl, rfl⟩
    | cons d rest =>
      have heq : forwardLoop env (d :: rest) 0 = fullResults env (d :: rest) 0 :=
        forwardLoop_all_delivered env (d :: rest) 0 (by simpa using h)
      refine ⟨heq, ?_⟩
      show (forwardLoop env (d :: rest) 0).length = _
      rw [heq, fullResults_length]

/-- C2 (witness): two targets, no cancellation: both results delivered. -/
theorem C2_witness :
    ForwardToMultipleDestinations ["http://a", "http://b"] envAllOk =
      fullResults envAllOk ["http://a", "http://b"] 0 ∧
    (ForwardToMultipleDestinations ["http://a", "http://b"] envAllOk).length = 2 :=
  (C2_forward_results ["http://a", "http://b"] envAllOk).2 (fun _ _ => rfl)

/-! ### C5: destination selection -/

theorem amendedRouteTargets_pos (matchRe : String → String → Option Bool)
    (message : String) :
    ∀ (routes : List (String × RegexRouteConfig)) (ds : List String),
      amendedRouteTargets matchRe routes message = some ds → 0 < ds.length := by
  intro routes
  induction routes with
  | nil => intro ds h; cases h
  | cons pr rest ih =>
    intro ds h
    rw [amendedRouteTargets] at h
    rcases hm : matchRe pr.fst message with _ | b
    · rw [hm] at h; exact ih ds h
    · cases b with
      | false => rw [hm] at h; exact ih ds h
      | true =>
        rw [hm] at h
        by_cases hu : pr.snd.urls.length > 0
        · rw [if_pos hu] at h; cases h; exact hu
        · rw [if_neg hu] at h
          by_cases he : pr.snd.endpoints.length > 0
          · rw [if_pos he] at h; cases h; exact he
          · rw [if_neg he] at h; exact ih ds h

theorem checkRegexRoutes_eq_amended (matchRe : String → String → Option Bool)
    (message : String) :
    ∀ routes : List (String × RegexRouteConfig),
      checkRegexRoutes matchRe routes message =
        (amendedRouteTargets matchRe routes message).getD [] := by
  intro routes
  induction routes with
  | nil => rfl
  | cons pr rest ih =>
    rw [checkRegexRoutes, amendedRouteTargets]
    rcases hm : matchRe pr.fst message with _ | b
    · exact ih
    · cases b with
      | false => exact ih
      | true =>
        by_cases hu : pr.snd.urls.length > 0
        · rw [if_pos hu, if_pos hu]; rfl
        · rw [if_neg hu, if_neg hu]
          by_cases he : pr.snd.endpoints.length > 0
          · rw [if_pos he, if_pos he]; rfl
          · rw [if_neg he, if_neg he]; exact ih

/-- C5 (counterexample): under a matcher for which every rule matches, with
a first rule whose `urls` and `endpoints` are both empty and a second rule
carrying a URL, the code returns the second rule's URL while the claim
("return the first matching rule's targets: `urls` if non-empty, else
`endpoints`") demands the empty list — so the claim as stated is false. -/
theorem C5_counterexample :
    selectDestinations c5MatchAll c5Routes ["http://d"] "a" = ["http://x"] ∧
    specSelectDestinations c5MatchAll c5Routes ["http://d"] "a" = [] ∧
    ¬(["http://x"] = ([] : List String)) := by
  exact ⟨rfl, rfl, by simp⟩

/-- C5 (amended): destination selection scans the rules in the order the
Go map `range` yields them (not a guaranteed insertion order), skips rules
whose regex fails to compile and rules that do not match, and returns the
targets of the first matching rule that has any: its `urls` if non-empty,
else its `endpoints`; a matching rule with both lists empty is skipped like
a non-match, and if no rule yields targets the tenant's `forward_to` list
is returned. -/
theorem C5_selectDestinations_spec (matchRe : String → String → Option Bool)
    (routes : List (String × RegexRouteConfig)) (forwardTo : List String)
    (message : String) :
    selectDestinations matchRe routes forwardTo message =
      (amendedRouteTargets matchRe routes message).getD forwardTo := by
  rw [selectDestinations, checkRegexRoutes_eq_amended]
  rcases h : amendedRouteTargets matchRe routes message with _ | ds
  · simp
  · have := amendedRouteTargets_pos matchRe message routes ds h
    simp [this]

/-! ### C8: the event-dispatch ACK -/

/-- C8: `GenDispatchACK` ignores its `success` argument and always produces
the bytes `{"op":12,"d":0}`; the event-dispatch arm of the webhook handler
sends exactly this body both on admit (status 200) and on throttle
(status 429), so the ACK is identical irrespective of downstream outcome. -/
theorem C8_dispatch_ack (success throttled : Bool) :
    GenDispatchACK success = "\x7b\"op\":12,\"d\":0\x7d" ∧
    (eventDispatchResponse throttled).snd = "\x7b\"op\":12,\"d\":0\x7d" ∧
    (eventDispatchResponse throttled).fst = (if throttled then 429 else 200) := by
  refine ⟨rfl, ?_, ?_⟩ <;> cases throttled <;> rfl

/-! ### C7 / C10: the Ed25519 seed derivation -/

theorem repBytes_zero (s : List Nat) : repBytes 0 s = [] := rfl

theorem repBytes_succ (k : Nat) (s : List Nat) :
    repBytes (k + 1) s = s ++ repBytes k s := by
  simp [repBytes, List.replicate_succ]

theorem repBytes_length (k : Nat) (s : List Nat) :
    (repBytes k s).length = k * s.length := by
  induction k with
  | zero => simp [repBytes_zero]
  | succ n ih => rw [repBytes_succ, List.length_append, ih]; ring

theorem repBytes_add (a b : Nat) (s : List Nat) :
    repBytes (a + b) s = repBytes a s ++ repBytes b s := by
  induction a with
  | zero => rw [repBytes_zero, Nat.zero_add, List.nil_append]
  | succ n ih =>
    rw [repBytes_succ, Nat.succ_add, repBytes_succ, ih, List.append_assoc]

theorem repBytes_take32 (s : List Nat) (a b : Nat)
    (ha : 32 ≤ a * s.length) (hb : 32 ≤ b * s.length) :
    (repBytes a s).take 32 = (repBytes b s).take 32 := by
  have key : ∀ x y : Nat, x ≤ y → 32 ≤ x * s.length →
      (repBytes x s).take 32 = (repBytes y s).take 32 := by
    intro x y hxy hx
    obtain ⟨c, rfl⟩ := Nat.le.dest hxy
    rw [repBytes_add, List.take_append_of_le_length]
    rw [repBytes_length]
    exact hx
  rcases Nat.le_total a b with h | h
  · exact key a b h ha
  · exact (key b a h hb).symm

theorem generateSeedLoop_rep (s : List Nat) :
    ∀ (fuel m : Nat) (r : List Nat),
      generateSeedLoop fuel (repBytes m s) = some r →
      ∃ k, 32 ≤ k * s.length ∧ r = (repBytes k s).take 32 := by
  intro fuel
  induction fuel with
  | zero => intro m r h; cases h
  | succ n ih =>
    intro m r h
    rw [generateSeedLoop] at h
    by_cases hl : (repBytes m s).length < 32
    · rw [if_pos hl] at h
      have : repBytes m s ++ repBytes m s = repBytes (m + m) s := (repBytes_add m m s).symm
      rw [this] at h
      exact ih (m + m) r h
    · rw [if_neg hl] at h
      refine ⟨m, ?_, ?_⟩
      · rw [← repBytes_length]; exact Nat.le_of_not_lt hl
      · cases h; rfl

theorem generateSeedLoop_term :
    ∀ (fuel : Nat) (s : List Nat), 1 ≤ s.length → 32 ≤ 2 ^ fuel * s.length →
      ∃ r, generateSeedLoop (fuel + 1) s = some r ∧ r.length = 32 := by
  intro fuel
  induction fuel with
  | zero =>
    intro s h1 h32
    rw [pow_zero, one_mul] at h32
    rw [generateSeedLoop, if_neg (Nat.not_lt.mpr h32)]
    exact ⟨s.take 32, rfl, by rw [List.length_take]; exact Nat.min_eq_left h32⟩
  | succ n ih =>
    intro s h1 h32
    rw [generateSeedLoop]
    by_cases hl : s.length < 32
    · rw [if_pos hl]
      apply ih (s ++ s)
      · rw [List.length_append]; omega
      · rw [List.length_append]
        have hr : 2 ^ n * (s.length + s.length) = 2 ^ (n + 1) * s.length := by ring
        rw [hr]; exact h32
    · rw [if_neg hl]
      exact ⟨s.take 32, rfl, by
        rw [List.length_take]; exact Nat.min_eq_left (Nat.le_of_not_lt hl)⟩

theorem repBytes_one (s : List Nat) : repBytes 1 s = s := by
  rw [repBytes_succ, repBytes_zero, List.append_nil]

/-- C7: for every non-empty tenant secret, the seed-derivation loop
terminates and yields exactly the first 32 bytes of the secret repeated
(any repetition count whose total length reaches 32 gives the same prefix):
the doubling loop of `generateSeed` computes the truncated repetition of
the secret that both `VerifySignature` and `HandleChallenge` use. -/
theorem C7_seed_is_truncated_repetition (s : List Nat) (k : Nat)
    (hne : s ≠ []) (hk : 32 ≤ k * s.length) :
    generateSeed s = some ((repBytes k s).take 32) := by
  have h1 : 1 ≤ s.length := List.length_pos.mpr hne
  have h32 : 32 ≤ 2 ^ 5 * s.length := by
    have : 32 * 1 ≤ 32 * s.length := Nat.mul_le_mul_left 32 h1
    simpa using this
  obtain ⟨r, hr, _⟩ := generateSeedLoop_term 5 s h1 h32
  have hrep : generateSeedLoop 6 (repBytes 1 s) = some r := by
    rw [repBytes_one]; exact hr
  obtain ⟨m, hm32, hmr⟩ := generateSeedLoop_rep s 6 1 r hrep
  rw [generateSeed, hr, hmr, repBytes_take32 s m k hm32 hk]

/-- C7 (witness): the secret `"abcd"` (4 bytes): the seed is the first 32
bytes of 8 repetitions. -/
theorem C7_witness :
    generateSeed (utf8Bytes "abcd") =
      some ((repBytes 8 (utf8Bytes "abcd")).take 32) :=
  C7_seed_is_truncated_repetition (utf8Bytes "abcd") 8 (by decide) (by decide)

/-- C10: the seed-derivation loop terminates for every non-empty secret,
producing exactly 32 bytes, and for the empty secret it never terminates
(no iteration bound suffices: doubling the empty string leaves it empty),
so signature verification and challenge handling diverge on a tenant with
an empty secret. -/
theorem C10_seed_loop_termination :
    (∀ s : List Nat, s ≠ [] → ∃ r, generateSeed s = some r ∧ r.length = 32) ∧
    (∀ fuel : Nat, generateSeedLoop fuel [] = none) := by
  constructor
  · intro s hne
    have h1 : 1 ≤ s.length := List.length_pos.mpr hne
    have h32 : 32 ≤ 2 ^ 5 * s.length := by
      have : 32 * 1 ≤ 32 * s.length := Nat.mul_le_mul_left 32 h1
      simpa using this
    exact generateSeedLoop_term 5 s h1 h32
  · intro fuel
    induction fuel with
    | zero => rfl
    | succ n ih => rw [generateSeedLoop, if_pos (by simp)]; simpa using ih

/-- C10 (witness): the one-byte secret `[107]` terminates with a 32-byte
seed; the empty secret is still looping after three iterations (and, by
the theorem, after any number of them). -/
theorem C10_witness :
    (∃ r, generateSeed [107] = some r ∧ r.length = 32) ∧
    generateSeedLoop 3 [] = none :=
  ⟨C10_seed_loop_termination.1 [107] (by decide), C10_seed_loop_termination.2 3⟩

/-! ### C4: spam priority versus the fast-user bonus -/

/-- C4 (counterexample): with the default scheduler configuration, user
`"u1"` (whose MD5 leading byte `0xe4` is divisible by 4, hence a "fast"
user) sending the spam-keyword message `"spam"` gets priority
`minPriority + fastUserBonus = 3`, not `minPriority = 1`: the fast-user
bonus is applied after the spam override, so the claim that spam always
pins the priority to exactly `minPriority` even for fast users is false. -/
theorem C4_counterexample :
    isFastUser "u1" = true ∧
    isSpamPattern "spam" defaultSchedulerConfig.messageClassification.spamKeywords = true ∧
    (calculatePriority defaultSchedulerConfig 100 50 0 0 [] "u1" "spam").fst = 3 ∧
    ¬((calculatePriority defaultSchedulerConfig 100 50 0 0 [] "u1" "spam").fst =
        defaultSchedulerConfig.prioritySettings.minPriority) := by
  set_option maxRecDepth 4000 in
  refine ⟨by decide, by decide, by decide, by decide⟩

/-- C4 (amended): when message classification is enabled with spam
detection and the message matches a spam pattern, `calculatePriority`
first pins the priority to `minPriority` and only then adds the fast-user
bonus, so the result is the clamp of `minPriority + fastUserBonus` for a
fast user and exactly `minPriority` only for a non-fast user (or a
non-positive bonus). -/
theorem C4_spam_priority (cfg : SchedulerConfig) (maxLoad currentLoad p50 now : Int)
    (userLast : List (String × Int)) (userID message : String)
    (hen : cfg.messageClassification.enabled = true)
    (hsd : cfg.messageClassification.spamDetection = true)
    (hspam : isSpamPattern message cfg.messageClassification.spamKeywords = true) :
    (calculatePriority cfg maxLoad currentLoad p50 now userLast userID message).fst =
      clampPrio cfg.prioritySettings
        (cfg.prioritySettings.minPriority +
          (if isFastUser userID then cfg.prioritySettings.fastUserBonus else 0)) := by
  rw [calculatePriority, clampPrio]
  simp only [hen, hsd, hspam, if_true, Bool.true_and, and_true]
  cases hf : isFastUser userID <;> simp [hf]

/-- C4 (witness): the non-fast user `"u5"` (MD5 leading byte `0x4d`)
sending `"spam"` under the default configuration. -/
theorem C4_witness :
    (calculatePriority defaultSchedulerConfig 100 50 0 0 [] "u5" "spam").fst =
      clampPrio defaultSchedulerConfig.prioritySettings
        (defaultSchedulerConfig.prioritySettings.minPriority +
          (if isFastUser "u5" then defaultSchedulerConfig.prioritySettings.fastUserBonus
           else 0)) :=
  C4_spam_priority defaultSchedulerConfig 100 50 0 0 [] "u5" "spam" rfl rfl (by decide)

/-! ### C3: the adaptive-throttle decision -/

/-- C3: in any state with the circuit closed and adaptive throttling
enabled, `ShouldThrottle` returns `true` exactly when the claim's
probability `p = throttleLevel · (1 − priority/10)` — multiplied by
`(1 + loadFrac)` when `loadFrac = currentLoad / maxLoad` exceeds the
high-load threshold — satisfies `p > 1/2`: a deterministic comparison,
independent of `userID`, with no randomness (`float64` modelled in `ℚ`). -/
theorem C3_adaptive_threshold (st : QoSState) (now currentLoad : Int)
    (userID : String) (priority : Int)
    (hclosed : st.circuitOpen = false) (hat : st.cfg.atEnabled = true) :
    ((ShouldThrottle st now currentLoad userID priority).fst = true ↔
      specThrottleProbability st.throttleLevel currentLoad st.cfg.maxLoad
        st.cfg.highLoadThreshold priority > 1 / 2) := by
  have hr : isCircuitOpenQ st now = ((false : Bool), st) := by
    rw [isCircuitOpenQ]
    by_cases hcb : st.cfg.cbEnabled = false
    · rw [if_pos hcb]
    · rw [if_neg hcb, hclosed]; simp
  have hsat : shouldAdaptiveThrottle st currentLoad priority = true ↔
      specThrottleProbability st.throttleLevel currentLoad st.cfg.maxLoad
        st.cfg.highLoadThreshold priority > 1 / 2 := by
    rw [shouldAdaptiveThrottle, specThrottleProbability]
    rw [if_neg (by rw [hat]; exact fun h => Bool.noConfusion h)]
    exact decide_eq_true_iff
  by_cases hp : specThrottleProbability st.throttleLevel currentLoad st.cfg.maxLoad
      st.cfg.highLoadThreshold priority > 1 / 2
  · have hb := hsat.mpr hp
    simpa [ShouldThrottle, hr, hb] using hp
  · have hb : shouldAdaptiveThrottle st currentLoad priority = false := by
      rcases Bool.eq_false_or_eq_true (shouldAdaptiveThrottle st currentLoad priority) with h | h
      · exact absurd (hsat.mp h) hp
      · exact h
    simp only [ShouldThrottle, hr, hb]
    simpa using hp

/-- C3 (witness): throttle level 0.9, load 90 of 100 (above the 0.8
high-load threshold), priority 2: `p = 0.9·0.8·1.9 = 1.368 > 0.5`, so the
request is throttled. -/
theorem C3_witness : (ShouldThrottle c3State 0 90 "u" 2).fst = true :=
  (C3_adaptive_threshold c3State 0 90 "u" 2 rfl rfl).mpr (by
    norm_num [specThrottleProbability, c3State, c3Cfg])

/-! ### C6: circuit breaker blocks and recovers -/

theorem updateCircuitBreaker_cfg (st : QoSState) (now : Int) (success : Bool) :
    (updateCircuitBreaker st now success).cfg = st.cfg := by
  rw [updateCircuitBreaker]; split_ifs <;> rfl

theorem updateCircuitBreaker_open (st : QoSState) (now : Int) (success : Bool)
    (h : (updateCircuitBreaker st now success).circuitOpen = true) :
    st.cfg.cbEnabled = true ∨ st.circuitOpen = true := by
  rw [updateCircuitBreaker] at h
  by_cases h1 : st.cfg.cbEnabled = false
  · rw [if_pos h1] at h; exact .inr h
  · left; simpa using h1

theorem isCircuitOpenQ_snd_cfg (st : QoSState) (now : Int) :
    (isCircuitOpenQ st now).snd.cfg = st.cfg := by
  rw [isCircuitOpenQ]; split_ifs <;> rfl

theorem isCircuitOpenQ_snd_open (st : QoSState) (now : Int)
    (h : (isCircuitOpenQ st now).snd.circuitOpen = true) : st.circuitOpen = true := by
  rw [isCircuitOpenQ] at h
  split_ifs at h <;> simp_all

theorem ShouldThrottle_snd (st : QoSState) (now currentLoad : Int)
    (userID : String) (priority : Int) :
    (ShouldThrottle st now currentLoad userID priority).snd =
      (isCircuitOpenQ st now).snd := by
  rw [ShouldThrottle]
  split_ifs <;> rfl

theorem breakerReset_cfg (oldCfg : QoSCfg) (s : QoSState) :
    (breakerReset oldCfg s).cfg = s.cfg := by
  rw [breakerReset]; split_ifs <;> rfl

theorem throttleReset_cfg (oldCfg : QoSCfg) (s : QoSState) :
    (throttleReset oldCfg s).cfg = s.cfg := by
  rw [throttleReset]; split_ifs <;> rfl

theorem throttleReset_open (oldCfg : QoSCfg) (s : QoSState) :
    (throttleReset oldCfg s).circuitOpen = s.circuitOpen := by
  rw [throttleReset]; split_ifs <;> rfl

theorem breakerReset_open (oldCfg : QoSCfg) (s : QoSState)
    (h : (breakerReset oldCfg s).circuitOpen = true) :
    s.circuitOpen = true ∧ oldCfg.cbEnabled = s.cfg.cbEnabled := by
  by_cases h1 : oldCfg.cbEnabled ≠ s.cfg.cbEnabled ∨
      oldCfg.failureThreshold ≠ s.cfg.failureThreshold
  · rw [breakerReset, if_pos h1] at h; exact absurd h (by simp)
  · rw [breakerReset, if_neg h1] at h
    push_neg at h1
    exact ⟨h, h1.1⟩

theorem UpdateConfigM_cfg (st : QoSState) (newCfg : QoSCfg) :
    (UpdateConfigM st newCfg).cfg = newCfg := by
  rw [UpdateConfigM, throttleReset_cfg, breakerReset_cfg]

theorem UpdateConfigM_open (st : QoSState) (newCfg : QoSCfg)
    (h : (UpdateConfigM st newCfg).circuitOpen = true) :
    st.circuitOpen = true ∧ st.cfg.cbEnabled = newCfg.cbEnabled := by
  rw [UpdateConfigM, throttleReset_open] at h
  have := breakerReset_open st.cfg { st with cfg := newCfg } h
  exact ⟨this.1, this.2⟩

theorem UpdateMetricsM_open_enabled (st : QoSState) (now : Int) (success : Bool)
    (newTL : ℚ) (ih : st.circuitOpen = true → st.cfg.cbEnabled = true)
    (h : (UpdateMetricsM st now success newTL).circuitOpen = true) :
    (UpdateMetricsM st now success newTL).cfg.cbEnabled = true := by
  have hopen : (UpdateMetricsM st now success newTL).circuitOpen =
      (updateCircuitBreaker st now success).circuitOpen := by
    rw [UpdateMetricsM]; split_ifs <;> rfl
  have hcfg2 : (UpdateMetricsM st now success newTL).cfg =
      (updateCircuitBreaker st now success).cfg := by
    rw [UpdateMetricsM]; split_ifs <;> rfl
  rw [hopen] at h
  rw [hcfg2, updateCircuitBreaker_cfg]
  rcases updateCircuitBreaker_open st now success h with he | ho
  · exact he
  · exact ih ho

/-- In every reachable QoS state, an open circuit implies the breaker is
enabled in the current configuration. -/
theorem reachable_open_enabled {st : QoSState} (h : ReachableQoS st) :
    st.circuitOpen = true → st.cfg.cbEnabled = true := by
  induction h with
  | init cfg => intro hO; exact absurd hO (by simp [initQoS])
  | step st e hst ih =>
    intro hO
    cases e with
    | metrics now success newTL =>
      exact UpdateMetricsM_open_enabled st now success newTL ih hO
    | admission now currentLoad userID priority =>
      have hsnd := ShouldThrottle_snd st now currentLoad userID priority
      rw [stepQoS, hsnd] at hO ⊢
      rw [isCircuitOpenQ_snd_cfg]
      exact ih (isCircuitOpenQ_snd_open st now hO)
    | reconfig newCfg =>
      rw [stepQoS] at hO ⊢
      rw [UpdateConfigM_cfg]
      obtain ⟨ho, he⟩ := UpdateConfigM_open st newCfg hO
      rw [← he]
      exact ih ho

/-- C6: in every reachable QoS state with the circuit open and the
recovery timeout not yet elapsed (`circuitOpenTime + recoveryTimeout >
now`), `ShouldThrottle` returns `true` regardless of `userID`, `priority`
and the current load; and once strictly more than `recoveryTimeout` has
elapsed, the next `ShouldThrottle` call resets `circuitOpen` to `false`
and the consecutive-failure counter to `0`. -/
theorem C6_circuit_blocks (st : QoSState) (now currentLoad : Int)
    (userID : String) (priority : Int)
    (hr : ReachableQoS st) (hO : st.circuitOpen = true) :
    (st.circuitOpenTime + st.cfg.recoveryTimeout > now →
      (ShouldThrottle st now currentLoad userID priority).fst = true) ∧
    (now - st.circuitOpenTime > st.cfg.recoveryTimeout →
      (ShouldThrottle st now currentLoad userID priority).snd.circuitOpen = false ∧
      (ShouldThrottle st now currentLoad userID priority).snd.failureCount = 0) := by
  have hE : st.cfg.cbEnabled = true := reachable_open_enabled hr hO
  constructor
  · intro hlt
    have hico : isCircuitOpenQ st now = ((true : Bool), st) := by
      rw [isCircuitOpenQ, if_neg (by rw [hE]; exact fun h => Bool.noConfusion h),
        if_pos hO, if_neg (by omega)]
    simp [ShouldThrottle, hico]
  · intro hgt
    have hico : isCircuitOpenQ st now =
        ((false : Bool), { st with circuitOpen := false, failureCount := 0 }) := by
      rw [isCircuitOpenQ, if_neg (by rw [hE]; exact fun h => Bool.noConfusion h),
        if_pos hO, if_pos (by omega)]
    rw [ShouldThrottle_snd, hico]
    exact ⟨rfl, rfl⟩

/-- C6 (witness): after one failure with threshold 1 the circuit opens at
time 100; at time 110 (within the 30-unit recovery timeout) the admission
check throttles unconditionally. -/
theorem C6_witness :
    (ShouldThrottle (stepQoS (initQoS c6Cfg) (QoSEvent.metrics 100 false 0))
        110 0 "u" 5).fst = true :=
  (C6_circuit_blocks (stepQoS (initQoS c6Cfg) (QoSEvent.metrics 100 false 0))
      110 0 "u" 5
      (ReachableQoS.step (initQoS c6Cfg) (QoSEvent.metrics 100 false 0)
        (ReachableQoS.init c6Cfg))
      (by decide)).1 (by decide)

/-! ### C9: baseline percentiles -/

theorem sortedBuf_sorted (l : List ℚ) : (sortedBuf l).Sorted (· ≤ ·) :=
  List.sorted_insertionSort _ l

theorem sortedBuf_length (l : List ℚ) : (sortedBuf l).length = l.length :=
  (List.perm_insertionSort _ l).length_eq

theorem sorted_getD_mono {c : List ℚ} (hs : c.Sorted (· ≤ ·)) {i j : Nat}
    (hij : i ≤ j) (hj : j < c.length) : c.getD i 0 ≤ c.getD j 0 := by
  rw [List.getD_eq_getElem c 0 (lt_of_le_of_lt hij hj), List.getD_eq_getElem c 0 hj]
  exact List.Sorted.rel_get_of_le hs hij

theorem idx50_floorNat (n : ℕ) : (⌊(50 : ℚ) / 100 * (n : ℚ)⌋).toNat = n / 2 := by
  rw [Int.floor_toNat, show (50 : ℚ) / 100 * (n : ℚ) = (n : ℚ) / 2 from by ring,
    show ((2 : ℚ)) = ((2 : ℕ) : ℚ) from by norm_num, Nat.floor_div_nat, Nat.floor_natCast]

theorem idx90_floorNat (n : ℕ) : (⌊(90 : ℚ) / 100 * (n : ℚ)⌋).toNat = 9 * n / 10 := by
  rw [Int.floor_toNat,
    show (90 : ℚ) / 100 * (n : ℚ) = ((9 * n : ℕ) : ℚ) / 10 from by push_cast; ring,
    show ((10 : ℚ)) = ((10 : ℕ) : ℚ) from by norm_num, Nat.floor_div_nat, Nat.floor_natCast]

theorem idx50_whole_of_even (n : ℕ) (h : n % 2 = 0) :
    ((⌊(50 : ℚ) / 100 * (n : ℚ)⌋ : ℚ)) = (50 : ℚ) / 100 * (n : ℚ) := by
  obtain ⟨k, rfl⟩ : ∃ k, n = 2 * k := ⟨n / 2, by omega⟩
  rw [show (50 : ℚ) / 100 * ((2 * k : ℕ) : ℚ) = ((k : ℕ) : ℚ) from by push_cast; ring,
    Int.floor_natCast]
  norm_cast

theorem percentile_of_len_one (l : List ℚ) (p : ℚ) (h : l.length = 1) :
    percentile l p = some (l.getD 0 0) := by
  rw [percentile, if_neg (by omega), if_pos h]

/-- The P50 value is at most the sorted element at position `(n+1)/2 - 1`. -/
theorem percentile50_le (l : List ℚ) (v : ℚ) (h2 : 2 ≤ l.length)
    (hv : percentile l 50 = some v) :
    v ≤ (sortedBuf l).getD ((l.length + 1) / 2 - 1) 0 := by
  rw [percentile, if_neg (by omega), if_neg (by omega), if_neg (by norm_num)] at hv
  by_cases hw : ((⌊(50 : ℚ) / 100 * (l.length : ℚ)⌋ : ℚ)) = (50 : ℚ) / 100 * (l.length : ℚ)
  · rw [if_pos hw] at hv
    cases hv
    rw [idx50_floorNat]
    exact sorted_getD_mono (sortedBuf_sorted l) (by omega)
      (by rw [sortedBuf_length]; omega)
  · rw [if_neg hw] at hv
    by_cases h1 : 1 < (50 : ℚ) / 100 * (l.length : ℚ)
    · rw [if_pos h1] at hv
      cases hv
      rw [idx50_floorNat]
      have hodd : l.length % 2 = 1 := by
        rcases Nat.even_or_odd l.length with he | ho
        · exact absurd (idx50_whole_of_even l.length (Nat.even_iff.mp he)) hw
        · exact Nat.odd_iff.mp ho
      have hpos : (l.length + 1) / 2 - 1 = l.length / 2 := by omega
      rw [hpos]
      have hmid : (sortedBuf l).getD (l.length / 2 - 1) 0 ≤
          (sortedBuf l).getD (l.length / 2) 0 :=
        sorted_getD_mono (sortedBuf_sorted l) (by omega)
          (by rw [sortedBuf_length]; omega)
      linarith
    · rw [if_neg h1] at hv; cases hv

/-- The P90 value is at least the sorted element at position `9n/10 - 1`. -/
theorem percentile90_ge (l : List ℚ) (v : ℚ) (h2 : 2 ≤ l.length)
    (hv : percentile l 90 = some v) :
    (sortedBuf l).getD (9 * l.length / 10 - 1) 0 ≤ v := by
  rw [percentile, if_neg (by omega), if_neg (by omega), if_neg (by norm_num)] at hv
  by_cases hw : ((⌊(90 : ℚ) / 100 * (l.length : ℚ)⌋ : ℚ)) = (90 : ℚ) / 100 * (l.length : ℚ)
  · rw [if_pos hw] at hv
    cases hv
    rw [idx90_floorNat]
  · rw [if_neg hw] at hv
    by_cases h1 : 1 < (90 : ℚ) / 100 * (l.length : ℚ)
    · rw [if_pos h1] at hv
      cases hv
      rw [idx90_floorNat]
      have hmid : (sortedBuf l).getD (9 * l.length / 10 - 1) 0 ≤
          (sortedBuf l).getD (9 * l.length / 10) 0 :=
        sorted_getD_mono (sortedBuf_sorted l) (by omega)
          (by rw [sortedBuf_length]; omega)
      linarith
    · rw [if_neg h1] at hv; cases hv

theorem percentile50_exists (l : List ℚ) (h1 : 1 ≤ l.length) :
    ∃ v, percentile l 50 = some v := by
  by_cases hone : l.length = 1
  · exact ⟨_, percentile_of_len_one l 50 hone⟩
  · have h2 : 2 ≤ l.length := by omega
    rw [percentile, if_neg (by omega), if_neg hone, if_neg (by norm_num)]
    by_cases hw : ((⌊(50 : ℚ) / 100 * (l.length : ℚ)⌋ : ℚ)) =
        (50 : ℚ) / 100 * (l.length : ℚ)
    · exact ⟨_, by rw [if_pos hw]⟩
    · have hgt : 1 < (50 : ℚ) / 100 * (l.length : ℚ) := by
        by_cases h2e : l.length = 2
        · exact absurd (by rw [h2e]; norm_num) hw
        · have h3 : (3 : ℚ) ≤ (l.length : ℚ) := by exact_mod_cast (by omega : 3 ≤ l.length)
          have heq : (50 : ℚ) / 100 * (l.length : ℚ) = (l.length : ℚ) / 2 := by ring
          rw [heq]; linarith
      exact ⟨_, by rw [if_neg hw, if_pos hgt]⟩

theorem percentile90_exists (l : List ℚ) (h1 : 1 ≤ l.length) :
    ∃ v, percentile l 90 = some v := by
  by_cases hone : l.length = 1
  · exact ⟨_, percentile_of_len_one l 90 hone⟩
  · have h2 : 2 ≤ l.length := by omega
    rw [percentile, if_neg (by omega), if_neg hone, if_neg (by norm_num)]
    by_cases hw : ((⌊(90 : ℚ) / 100 * (l.length : ℚ)⌋ : ℚ)) =
        (90 : ℚ) / 100 * (l.length : ℚ)
    · exact ⟨_, by rw [if_pos hw]⟩
    · have hc : (2 : ℚ) ≤ (l.length : ℚ) := by exact_mod_cast h2
      have hgt : 1 < (90 : ℚ) / 100 * (l.length : ℚ) := by linarith
      exact ⟨_, by rw [if_neg hw, if_pos hgt]⟩

theorem percentile90_some_of_50 (l : List ℚ) (v : ℚ)
    (hv : percentile l 50 = some v) : ∃ w, percentile l 90 = some w := by
  have h1 : 1 ≤ l.length := by
    by_contra h
    rw [percentile, if_pos (by omega)] at hv
    cases hv
  exact percentile90_exists l h1

theorem percentile50_le_percentile90 (l : List ℚ) (h1 : 1 ≤ l.length)
    (a b : ℚ) (ha : percentile l 50 = some a) (hb : percentile l 90 = some b) :
    a ≤ b := by
  by_cases hone : l.length = 1
  · rw [percentile_of_len_one l 50 hone] at ha
    rw [percentile_of_len_one l 90 hone] at hb
    cases ha; cases hb; exact le_refl _
  · have h2 : 2 ≤ l.length := by omega
    have hA := percentile50_le l a h2 ha
    have hB := percentile90_ge l b h2 hb
    have hmono : (sortedBuf l).getD ((l.length + 1) / 2 - 1) 0 ≤
        (sortedBuf l).getD (9 * l.length / 10 - 1) 0 :=
      sorted_getD_mono (sortedBuf_sorted l) (by omega)
        (by rw [sortedBuf_length]; omega)
    linarith

theorem truncQ_mono {a b : ℚ} (h : a ≤ b) : truncQ a ≤ truncQ b := by
  rw [truncQ, truncQ]
  split_ifs with ha hb hb
  · exact Int.floor_le_floor h
  · exact absurd (le_trans ha h) hb
  · have hc : (⌈a⌉ : ℤ) ≤ 0 :=
      Int.ceil_le.mpr (by exact_mod_cast le_of_lt (lt_of_not_ge ha))
    have hf : (0 : ℤ) ≤ ⌊b⌋ := Int.floor_nonneg.mpr hb
    omega
  · exact Int.ceil_le_ceil h

/-- C9: after an `updateBaselines` run on a window with at least
`minDataPoints` samples (and at least one sample), the cached baselines
satisfy `p50 ≤ p90`, both plain finite integers; and on failure the cache
is never partially corrupted: with an empty buffer the state is unchanged,
and in general either nothing changes or both percentiles were computed
and both caches are set from them (a P50 success forces a P90 success on
the same buffer, so no partial update is reachable). -/
theorem C9_baselines (s : StatsState) :
    (s.messageIntervals = [] → updateBaselines s = s) ∧
    (updateBaselines s = s ∨
      ∃ v50 v90, percentile s.messageIntervals 50 = some v50 ∧
        percentile s.messageIntervals 90 = some v90 ∧
        (updateBaselines s).p50 = truncQ v50 * 1000000 ∧
        (updateBaselines s).p90 = truncQ v90 * 1000000) ∧
    (s.minDataPoints ≤ s.messageIntervals.length →
      1 ≤ s.messageIntervals.length →
      (updateBaselines s).p50 ≤ (updateBaselines s).p90) := by
  refine ⟨?_, ?_, ?_⟩
  · intro h
    rw [updateBaselines]
    by_cases hm : s.messageIntervals.length < s.minDataPoints
    · rw [if_pos hm]
    · rw [if_neg hm]
      have hnone : percentile s.messageIntervals 50 = none := by
        rw [h]; rfl
      rw [hnone]
  · by_cases hlen : s.messageIntervals.length < s.minDataPoints
    · left; rw [updateBaselines, if_pos hlen]
    · rcases h50 : percentile s.messageIntervals 50 with _ | v50
      · left; rw [updateBaselines, if_neg hlen, h50]
      · rcases h90 : percentile s.messageIntervals 90 with _ | v90
        · obtain ⟨w, hw⟩ := percentile90_some_of_50 _ _ h50
          rw [hw] at h90; cases h90
        · right
          exact ⟨v50, v90, rfl, rfl,
            by rw [updateBaselines, if_neg hlen, h50, h90],
            by rw [updateBaselines, if_neg hlen, h50, h90]⟩
  · intro hmin h1
    rw [updateBaselines, if_neg (by omega)]
    obtain ⟨v50, hv50⟩ := percentile50_exists _ h1
    obtain ⟨v90, hv90⟩ := percentile90_exists _ h1
    rw [hv50, hv90]
    show truncQ v50 * 1000000 ≤ truncQ v90 * 1000000
    have hab : v50 ≤ v90 := percentile50_le_percentile90 _ h1 _ _ hv50 hv90
    have := truncQ_mono hab
    nlinarith [truncQ_mono hab]

/-- C9 (witness): a singleton window `[5]` with `minDataPoints = 1`. -/
theorem C9_witness :
    (updateBaselines ⟨[5], 0, 0, 1⟩).p50 ≤ (updateBaselines ⟨[5], 0, 0, 1⟩).p90 :=
  (C9_baselines ⟨[5], 0, 0, 1⟩).2.2 (by decide) (by decide)
